import Mathlib

/-!
Verification of the QUIC transport-parameters codec
(`neqo-transport/src/tparams.rs`): the `TransportParameter` TLV
encoder/decoder, the `TransportParameters` set with its decode loop and
integer accessor, and the `TransportParametersHandler` extension adapter.

Bytes are modelled as `List Nat` consumed from the front; the cursor of
the external `Data` buffer type is modelled by returning the remaining
suffix alongside each decoded value.  Machine integers are `Nat` with
explicit truncation where the source truncates (`encode_uint` writes the
low `n` bytes of its argument, exactly as writing `a.len() as u64` into
two bytes does).  Rust panics are modelled as `Option.none` results.
-/

deriving instance DecidableEq for Except

namespace TParams

/-- Error codes used by the codec, mirroring the variants of the crate's
`Error` enum that this module constructs or matches on. -/
inductive Error where
  | NoMoreData
  | TooMuchData
  | TransportParameterError
  | UnknownTransportParameter
deriving DecidableEq, Repr

/-- Big-endian accumulation of a byte list onto an accumulator:
`readBE acc [b1, b2] = (acc * 256 + b1) * 256 + b2`. -/
def readBE (acc : Nat) (l : List Nat) : Nat :=
  l.foldl (fun a b => a * 256 + b) acc

/-- Modelled from the spec: the generic length-prefixed buffer cursor's
big-endian unsigned write (`Data::encode_uint(v, n)`), an external
collaborator.  Writes the low `n` bytes of `v`, most significant first. -/
def encode_uint (v : Nat) : Nat → List Nat
  | 0 => []
  | n + 1 => (v / 256 ^ n % 256) :: encode_uint (v % 256 ^ n) n

/-- Modelled from the spec: the buffer cursor's big-endian unsigned read
(`Data::decode_uint(n)`), an external collaborator.  Fails with
`NoMoreData` when fewer than `n` bytes remain. -/
def decode_uint (n : Nat) (d : List Nat) : Except Error (Nat × List Nat) :=
  if n ≤ d.length then .ok (readBE 0 (d.take n), d.drop n)
  else .error .NoMoreData

/-- Modelled from the spec: the buffer cursor's raw byte read
(`Data::decode_data(n)`), an external collaborator. -/
def decode_data (n : Nat) (d : List Nat) : Except Error (List Nat × List Nat) :=
  if n ≤ d.length then .ok (d.take n, d.drop n)
  else .error .NoMoreData

/-- Modelled from the spec: byte length of the minimal varint encoding of
`v` (`get_varint_len`), an external collaborator. -/
def get_varint_len (v : Nat) : Nat :=
  if v < 2 ^ 6 then 1
  else if v < 2 ^ 14 then 2
  else if v < 2 ^ 30 then 4
  else 8

/-- Modelled from the spec: the minimal self-describing varint encoding
(`Data::encode_varint`), an external collaborator.  The two top bits of
the first byte hold the length tag (00→1, 01→2, 10→4, 11→8 bytes). -/
def encode_varint (v : Nat) : List Nat :=
  if v < 2 ^ 6 then encode_uint v 1
  else if v < 2 ^ 14 then encode_uint (2 ^ 14 + v) 2
  else if v < 2 ^ 30 then encode_uint (2 * 2 ^ 30 + v) 4
  else encode_uint (3 * 2 ^ 62 + v) 8

/-- Modelled from the spec: the varint read (`Data::decode_varint`), an
external collaborator.  Reads the length tag from the first byte's top
two bits, then the remaining bytes big-endian. -/
def decode_varint (d : List Nat) : Except Error (Nat × List Nat) :=
  match d with
  | [] => .error .NoMoreData
  | b :: rest =>
    let n := 2 ^ (b / 64)
    if n - 1 ≤ rest.length then
      .ok (readBE (b % 64) (rest.take (n - 1)), rest.drop (n - 1))
    else .error .NoMoreData

/-! ## The transport-parameters registry (`mod consts`) -/

abbrev TRANSPORT_PARAMETER_ORIGINAL_CONNECTION_ID : Nat := 0
abbrev TRANSPORT_PARAMETER_IDLE_TIMEOUT : Nat := 1
abbrev TRANSPORT_PARAMETER_STATELESS_RESET_TOKEN : Nat := 2
abbrev TRANSPORT_PARAMETER_MAX_PACKET_SIZE : Nat := 3
abbrev TRANSPORT_PARAMETER_INITIAL_MAX_DATA : Nat := 4
abbrev TRANSPORT_PARAMETER_INITIAL_MAX_STREAM_DATA_BIDI_LOCAL : Nat := 5
abbrev TRANSPORT_PARAMETER_INITIAL_MAX_STREAM_DATA_BIDI_REMOTE : Nat := 6
abbrev TRANSPORT_PARAMETER_INITIAL_MAX_STREAM_DATA_UNI : Nat := 7
abbrev TRANSPORT_PARAMETER_INITIAL_MAX_STREAMS_BIDI : Nat := 8
abbrev TRANSPORT_PARAMETER_INITIAL_MAX_STREAMS_UNI : Nat := 9
abbrev TRANSPORT_PARAMETER_ACK_DELAY_EXPONENT : Nat := 10
abbrev TRANSPORT_PARAMETER_MAX_ACK_DELAY : Nat := 11
abbrev TRANSPORT_PARAMETER_DISABLE_MIGRATION : Nat := 12
abbrev TRANSPORT_PARAMETER_PREFERRED_ADDRESS : Nat := 13

/-! ## `TransportParameter`: one parameter's value, with TLV codec -/

/-- The `TransportParameter` enum: one parameter's decoded content. -/
inductive TransportParameter where
  | Bytes (a : List Nat)
  | Integer (a : Nat)
  | Empty
deriving DecidableEq, Repr

/-- `TransportParameter::encode`: writes the 2-byte code, the 2-byte
declared length, then the value.  The source appends to a `Data` buffer
and always returns `Ok(())`; we model it as the byte list appended. -/
def TransportParameter.encode (tp : TransportParameter) (tipe : Nat) : List Nat :=
  encode_uint tipe 2 ++
    match tp with
    | .Bytes a => encode_uint a.length 2 ++ a
    | .Integer a => encode_uint (get_varint_len a) 2 ++ encode_varint a
    | .Empty => encode_uint 0 2

/-- `TransportParameter::decode`: reads code and declared length, then
dispatches on the code.  The second component is the final cursor
position (the remaining suffix) — the source mutates `d` in place, and
the caller's loop keeps reading from that position even after the
recoverable `UnknownTransportParameter` error. -/
def TransportParameter.decode (d : List Nat) :
    Except Error (Nat × TransportParameter) × List Nat :=
  match decode_uint 2 d with
  | .error e => (.error e, d)
  | .ok (tipe, d1) =>
    match decode_uint 2 d1 with
    | .error e => (.error e, d1)
    | .ok (length, d2) =>
      let remaining := d2.length
      -- The source dispatches with a `match` on disjoint `u16` literals;
      -- an if-chain in the same arm order is the same function.
      let step : Except Error TransportParameter × List Nat :=
        if tipe = TRANSPORT_PARAMETER_ORIGINAL_CONNECTION_ID then
          match decode_data length d2 with
          | .error e => (.error e, d2)
          | .ok (b, d3) => (.ok (.Bytes b), d3)
        else if tipe = TRANSPORT_PARAMETER_STATELESS_RESET_TOKEN then
          if length ≠ 16 then (.error .TransportParameterError, d2)
          else
            match decode_data length d2 with
            | .error e => (.error e, d2)
            | .ok (b, d3) => (.ok (.Bytes b), d3)
        else if tipe = TRANSPORT_PARAMETER_IDLE_TIMEOUT ∨
            tipe = TRANSPORT_PARAMETER_INITIAL_MAX_DATA ∨
            tipe = TRANSPORT_PARAMETER_INITIAL_MAX_STREAM_DATA_BIDI_LOCAL ∨
            tipe = TRANSPORT_PARAMETER_INITIAL_MAX_STREAM_DATA_BIDI_REMOTE ∨
            tipe = TRANSPORT_PARAMETER_INITIAL_MAX_STREAM_DATA_UNI ∨
            tipe = TRANSPORT_PARAMETER_INITIAL_MAX_STREAMS_BIDI ∨
            tipe = TRANSPORT_PARAMETER_INITIAL_MAX_STREAMS_UNI ∨
            tipe = TRANSPORT_PARAMETER_MAX_ACK_DELAY then
          match decode_varint d2 with
          | .error e => (.error e, d2)
          | .ok (v, d3) => (.ok (.Integer v), d3)
        else if tipe = TRANSPORT_PARAMETER_MAX_PACKET_SIZE then
          match decode_varint d2 with
          | .error e => (.error e, d2)
          | .ok (v, d3) =>
            if v < 1200 then (.error .TransportParameterError, d3)
            else (.ok (.Integer v), d3)
        else if tipe = TRANSPORT_PARAMETER_ACK_DELAY_EXPONENT then
          match decode_varint d2 with
          | .error e => (.error e, d2)
          | .ok (v, d3) =>
            if v > 20 then (.error .TransportParameterError, d3)
            else (.ok (.Integer v), d3)
        else
          -- Skip (the `_` arm): consume the declared length, then signal
          -- the recoverable unknown-parameter error.
          match decode_data length d2 with
          | .error e => (.error e, d2)
          | .ok (_, d3) => (.error .UnknownTransportParameter, d3)
      match step with
      | (.error e, d3) => (.error e, d3)
      | (.ok tp, d3) =>
        if remaining - d3.length > length then (.error .NoMoreData, d3)
        else if remaining - d3.length > length then (.error .TooMuchData, d3)
        else (.ok (tipe, tp), d3)

/-! ## `TransportParameters`: the parameter set -/

/-- The `TransportParameters` struct.  The source stores a
`HashMap<u16, TransportParameter>`; we model it as an association list
whose insert replaces any existing binding of the key, and whose
equality (under the at-most-once key invariant the map maintains) is the
map equality the source's `PartialEq` provides. -/
structure TransportParameters where
  params : List (Nat × TransportParameter)
deriving DecidableEq, Repr

/-- `HashMap::insert`: binds `tipe` to `tp`, replacing any previous
binding of `tipe`. -/
def TransportParameters.insert (tps : TransportParameters) (tipe : Nat)
    (tp : TransportParameter) : TransportParameters :=
  ⟨tps.params.filter (fun p => p.1 != tipe) ++ [(tipe, tp)]⟩

/-- `HashMap::get`: the value bound to `tipe`, if any. -/
def TransportParameters.get (tps : TransportParameters) (tipe : Nat) :
    Option TransportParameter :=
  (tps.params.find? (fun p => p.1 == tipe)).map Prod.snd

/-- `TransportParameters::encode`: encodes every entry back to back. -/
def TransportParameters.encode (tps : TransportParameters) : List Nat :=
  tps.params.foldl (fun d p => d ++ TransportParameter.encode p.2 p.1) []

/-- The concatenation of the encodings of a list of entries (the body of
`TransportParameters::encode` as a function of the entry list). -/
def encodeList (l : List (Nat × TransportParameter)) : List Nat :=
  l.foldr (fun p acc => TransportParameter.encode p.2 p.1 ++ acc) []

/-- The `while d.remaining() > 0` loop of `TransportParameters::decode`.
`fuel` bounds the number of iterations; every continuing iteration
consumes at least the 4 header bytes, so `d.length` iterations always
suffice (`decodeLoop_fuel` below) and the fuel-exhaustion arm is
unreachable from `TransportParameters.decode`. -/
def TransportParameters.decodeLoop :
    Nat → TransportParameters → List Nat → Except Error TransportParameters
  | _, tps, [] => .ok tps
  | 0, _, _ :: _ => .error .NoMoreData
  | fuel + 1, tps, d =>
    match TransportParameter.decode d with
    | (.ok (tipe, tp), d1) => decodeLoop fuel (tps.insert tipe tp) d1
    | (.error .UnknownTransportParameter, d1) => decodeLoop fuel tps d1
    | (.error e, _) => .error e

/-- `TransportParameters::decode`: starts from the default (empty) set
and runs the decode loop over the whole buffer. -/
def TransportParameters.decode (d : List Nat) : Except Error TransportParameters :=
  TransportParameters.decodeLoop d.length ⟨[]⟩ d

/-- `TransportParameters::get_integer`: the stored Integer for `tipe`,
or the fixed default when absent.  The source panics when `tipe` is not
an integer-typed registry code, or when the stored value is not an
`Integer`; both panics are modelled as `none`. -/
def TransportParameters.get_integer (tps : TransportParameters) (tipe : Nat) :
    Option Nat :=
  let dflt : Option Nat :=
    match tipe with
    | 1 | 4 | 5 | 6 | 7 | 8 | 9 => some 0
    | 3 => some 65527
    | 10 => some 3
    | 11 => some 25
    | _ => none
  match dflt with
  | none => none
  | some df =>
    match tps.get tipe with
    | none => some df
    | some (.Integer x) => some x
    | some _ => none

/-! ## `TransportParametersHandler`: the extension adapter -/

/-- Modelled from the spec: the handshake message-kind tag for
ClientHello (`TLS_HS_CLIENT_HELLO`, defined in the external crypto
crate; its concrete value is immaterial to the adapter's dispatch). -/
def TLS_HS_CLIENT_HELLO : Nat := 1

/-- Modelled from the spec: the handshake message-kind tag for
EncryptedExtensions (`TLS_HS_ENCRYPTED_EXTENSIONS`, defined in the
external crypto crate). -/
def TLS_HS_ENCRYPTED_EXTENSIONS : Nat := 8

/-- The external framework's `ExtensionHandlerResult`. -/
inductive ExtensionHandlerResult where
  | Ok
  | Alert (code : Nat)
deriving DecidableEq, Repr

/-- The `TransportParametersHandler` struct: local set plus the
optional remote set. -/
structure TransportParametersHandler where
  «local» : TransportParameters
  remote : Option TransportParameters
deriving DecidableEq, Repr

/-- `TransportParametersHandler::handle` (the `consume` operation):
dispatches on the message kind, then decodes the peer's bytes into
`remote`.  Returns the updated handler state with the result. -/
def TransportParametersHandler.handle (h : TransportParametersHandler)
    (msg : Nat) (d : List Nat) :
    TransportParametersHandler × ExtensionHandlerResult :=
  if ¬ (msg = TLS_HS_CLIENT_HELLO ∨ msg = TLS_HS_ENCRYPTED_EXTENSIONS) then
    (h, .Alert 110)
  else
    match TransportParameters.decode d with
    | .error _ => (h, .Alert 47)
    | .ok tp => ({ h with remote := some tp }, .Ok)

/-! ## Validity of entries -/

/-- An entry that a well-formed local set may hold, per the registry:
the registry-mandated variant for the code, satisfying the code's
validation rule, with the value encodable in the wire format (Integers
fit the 62-bit varint range, Bytes lengths fit the 16-bit length
field).  Codes 12 (disable-migration) and 13 (preferred-address) have no
dispatch arm in `TransportParameter.decode` and are excluded. -/
def isValidEntry (t : Nat) (tp : TransportParameter) : Bool :=
  if t = 0 then
    match tp with
    | .Bytes a => decide (a.length < 2 ^ 16)
    | _ => false
  else if t = 2 then
    match tp with
    | .Bytes a => decide (a.length = 16)
    | _ => false
  else if t = 3 then
    match tp with
    | .Integer v => decide (1200 ≤ v ∧ v < 2 ^ 62)
    | _ => false
  else if t = 10 then
    match tp with
    | .Integer v => decide (v ≤ 20)
    | _ => false
  else if t = 1 ∨ t = 4 ∨ t = 5 ∨ t = 6 ∨ t = 7 ∨ t = 8 ∨ t = 9 ∨ t = 11 then
    match tp with
    | .Integer v => decide (v < 2 ^ 62)
    | _ => false
  else false

/-! ## Primitive codec lemmas -/

theorem readBE_nil (acc : Nat) : readBE acc [] = acc := rfl

theorem readBE_cons (acc b : Nat) (l : List Nat) :
    readBE acc (b :: l) = readBE (acc * 256 + b) l := rfl

theorem encode_uint_length (n : Nat) : ∀ v, (encode_uint v n).length = n := by
  induction n with
  | zero => intro v; rfl
  | succ n ih => intro v; simp [encode_uint, ih]

theorem readBE_encode_uint (n : Nat) :
    ∀ v acc, readBE acc (encode_uint v n) = acc * 256 ^ n + v % 256 ^ n := by
  induction n with
  | zero => intro v acc; simp [encode_uint, readBE, Nat.mod_one]
  | succ n ih =>
    intro v acc
    rw [encode_uint, readBE_cons, ih,
      Nat.mod_mod_of_dvd v (dvd_refl (256 ^ n)),
      show (256 : Nat) ^ (n + 1) = 256 ^ n * 256 from by ring, Nat.mod_mul]
    ring

theorem take_append_of_length {α : Type} (l1 l2 : List α) (n : Nat)
    (h : l1.length = n) : (l1 ++ l2).take n = l1 := by
  subst h; exact List.take_left _ _

theorem drop_append_of_length {α : Type} (l1 l2 : List α) (n : Nat)
    (h : l1.length = n) : (l1 ++ l2).drop n = l2 := by
  subst h; exact List.drop_left _ _

theorem decode_uint_encode (n v : Nat) (rest : List Nat) :
    decode_uint n (encode_uint v n ++ rest) = .ok (v % 256 ^ n, rest) := by
  have hlen : (encode_uint v n).length = n := encode_uint_length n v
  unfold decode_uint
  rw [if_pos (by simp [hlen]), take_append_of_length _ _ _ hlen,
    drop_append_of_length _ _ _ hlen, readBE_encode_uint]
  simp

theorem decode_data_encode (l rest : List Nat) :
    decode_data l.length (l ++ rest) = .ok (l, rest) := by
  unfold decode_data
  rw [if_pos (by simp), List.take_left, List.drop_left]

theorem decode_data_of_length (n : Nat) (l rest : List Nat) (h : l.length = n) :
    decode_data n (l ++ rest) = .ok (l, rest) := by
  subst h; exact decode_data_encode l rest

/-- One generic varint round-trip covering all four length tags:
the wire word is `tag` in the top two bits of the first byte, `v` below. -/
theorem decode_varint_generic (tag v m : Nat) (htag : tag < 4)
    (hv : v < 64 * 256 ^ m) (hm : 2 ^ tag = m + 1) (rest : List Nat) :
    decode_varint (encode_uint (tag * (64 * 256 ^ m) + v) (m + 1) ++ rest) =
      .ok (v, rest) := by
  have hpow : (0 : Nat) < 256 ^ m := Nat.pos_pow_of_pos m (by norm_num)
  set u : Nat := tag * (64 * 256 ^ m) + v with hu
  have hudiv : u / 256 ^ m = tag * 64 + v / 256 ^ m := by
    rw [hu, show tag * (64 * 256 ^ m) + v = v + (tag * 64) * 256 ^ m from by ring,
      Nat.add_mul_div_right _ _ hpow]
    ring
  have humod : u % 256 ^ m = v % 256 ^ m := by
    rw [hu, show tag * (64 * 256 ^ m) + v = v + (tag * 64) * 256 ^ m from by ring,
      Nat.add_mul_mod_self_right]
  have hdivlt : v / 256 ^ m < 64 := Nat.div_lt_of_lt_mul (by linarith [hv])
  set r : Nat := v / 256 ^ m with hr
  have div64 : ∀ a b : Nat, b < 64 → (a * 64 + b) / 64 = a := by
    intro a b h; omega
  have mod64 : ∀ a b : Nat, b < 64 → (a * 64 + b) % 64 = b := by
    intro a b h; omega
  have lt256 : ∀ a b : Nat, a < 4 → b < 64 → a * 64 + b < 256 := by
    intro a b h1 h2; omega
  have hbyte : u / 256 ^ m % 256 = tag * 64 + r := by
    rw [hudiv, Nat.mod_eq_of_lt (lt256 tag r htag hdivlt)]
  have hbdiv : (tag * 64 + r) / 64 = tag := div64 tag r hdivlt
  have hbmod : (tag * 64 + r) % 64 = r := mod64 tag r hdivlt
  rw [encode_uint, hbyte]
  have hlen : (encode_uint (u % 256 ^ m) m).length = m := encode_uint_length m _
  unfold decode_varint
  simp only [hbdiv, hm, List.cons_append, Nat.add_sub_cancel]
  rw [if_pos (by simp [hlen]), take_append_of_length _ _ _ hlen,
    drop_append_of_length _ _ _ hlen, hbmod, readBE_encode_uint, humod,
    Nat.mod_mod_of_dvd v (dvd_refl (256 ^ m)), hr, Nat.div_add_mod' v (256 ^ m)]

theorem encode_varint_length (v : Nat) :
    (encode_varint v).length = get_varint_len v := by
  unfold encode_varint get_varint_len
  split_ifs <;> simp [encode_uint_length]

theorem decode_varint_encode (v : Nat) (hv : v < 2 ^ 62) (rest : List Nat) :
    decode_varint (encode_varint v ++ rest) = .ok (v, rest) := by
  unfold encode_varint
  split_ifs with h1 h2 h3
  · simpa using decode_varint_generic 0 v 0 (by norm_num) (by norm_num at h1 ⊢; omega)
      (by norm_num) rest
  · simpa using decode_varint_generic 1 v 1 (by norm_num) (by norm_num at h2 ⊢; omega)
      (by norm_num) rest
  · simpa using decode_varint_generic 2 v 3 (by norm_num) (by norm_num at h3 ⊢; omega)
      (by norm_num) rest
  · simpa using decode_varint_generic 3 v 7 (by norm_num) (by norm_num at hv ⊢; omega)
      (by norm_num) rest

theorem get_varint_len_lt (v : Nat) :
    get_varint_len v % 256 ^ 2 = get_varint_len v :=
  Nat.mod_eq_of_lt (by unfold get_varint_len; split_ifs <;> norm_num)

/-! ## Entry-level round-trip -/

/-- Decoding an encoded valid entry returns the entry and leaves the
cursor right after it. -/
theorem decode_encode_entry (t : Nat) (tp : TransportParameter)
    (h : isValidEntry t tp = true) (rest : List Nat) :
    TransportParameter.decode (TransportParameter.encode tp t ++ rest) =
      (.ok (t, tp), rest) := by
  unfold isValidEntry at h
  split_ifs at h with h0 h2 h3 h10 hplain
  · subst h0
    cases tp with
    | Bytes a =>
      have ha : a.length < 2 ^ 16 := by simpa using h
      have ham : a.length % 256 ^ 2 = a.length :=
        Nat.mod_eq_of_lt (by norm_num at ha ⊢; omega)
      simp only [TransportParameter.encode, List.append_assoc]
      simp only [TransportParameter.decode, decode_uint_encode]
      rw [ham, decode_data_encode]
      simp [List.length_append]
    | Integer v => simp at h
    | Empty => simp at h
  · subst h2
    cases tp with
    | Bytes a =>
      have ha : a.length = 16 := by simpa using h
      have ham : a.length % 256 ^ 2 = a.length := Nat.mod_eq_of_lt (by omega)
      simp only [TransportParameter.encode, List.append_assoc]
      simp only [TransportParameter.decode, decode_uint_encode]
      rw [ham]
      simp [decode_data_of_length 16 a rest ha, ha, List.length_append]
    | Integer v => simp at h
    | Empty => simp at h
  · subst h3
    cases tp with
    | Integer v =>
      have hv : 1200 ≤ v ∧ v < 2 ^ 62 := by simpa using h
      simp only [TransportParameter.encode, List.append_assoc]
      simp only [TransportParameter.decode, decode_uint_encode, get_varint_len_lt,
        decode_varint_encode v hv.2]
      simp [show ¬ v < 1200 from by omega, List.length_append, encode_varint_length]
    | Bytes a => simp at h
    | Empty => simp at h
  · subst h10
    cases tp with
    | Integer v =>
      have hv : v ≤ 20 := by simpa using h
      have hv62 : v < 2 ^ 62 := by norm_num; omega
      simp only [TransportParameter.encode, List.append_assoc]
      simp only [TransportParameter.decode, decode_uint_encode, get_varint_len_lt,
        decode_varint_encode v hv62]
      simp [show ¬ v > 20 from by omega, List.length_append, encode_varint_length]
    | Bytes a => simp at h
    | Empty => simp at h
  · rcases hplain with rfl | rfl | rfl | rfl | rfl | rfl | rfl | rfl <;>
      (cases tp with
       | Integer v =>
         have hv : v < 2 ^ 62 := by simpa using h
         simp only [TransportParameter.encode, List.append_assoc]
         simp only [TransportParameter.decode, decode_uint_encode, get_varint_len_lt,
           decode_varint_encode v hv]
         simp [List.length_append, encode_varint_length]
       | Bytes a => simp at h
       | Empty => simp at h)

/-! ## Set-level lemmas -/

theorem decodeLoop_nil (fuel : Nat) (tps : TransportParameters) :
    TransportParameters.decodeLoop fuel tps [] = .ok tps := by
  cases fuel <;> rfl

/-- One step of the decode loop on a non-empty buffer. -/
theorem decodeLoop_step (fuel : Nat) (tps : TransportParameters) (d : List Nat)
    (hd : d ≠ []) :
    TransportParameters.decodeLoop (fuel + 1) tps d =
      match TransportParameter.decode d with
      | (.ok (tipe, tp), d1) =>
        TransportParameters.decodeLoop fuel (tps.insert tipe tp) d1
      | (.error .UnknownTransportParameter, d1) =>
        TransportParameters.decodeLoop fuel tps d1
      | (.error e, _) => .error e := by
  cases d with
  | nil => exact absurd rfl hd
  | cons b l => rfl

theorem encodeList_cons (p : Nat × TransportParameter)
    (l : List (Nat × TransportParameter)) :
    encodeList (p :: l) = TransportParameter.encode p.2 p.1 ++ encodeList l := rfl

theorem encode_eq_encodeList (tps : TransportParameters) :
    TransportParameters.encode tps = encodeList tps.params := by
  suffices h : ∀ (l : List (Nat × TransportParameter)) (acc : List Nat),
      List.foldl (fun d p => d ++ TransportParameter.encode p.2 p.1) acc l =
        acc ++ encodeList l by
    simpa using h tps.params []
  intro l
  induction l with
  | nil => intro acc; simp [encodeList]
  | cons p l ih =>
    intro acc
    simp only [List.foldl_cons]
    rw [ih]
    simp [encodeList, List.append_assoc]

theorem encode_entry_ne_nil (tp : TransportParameter) (t : Nat) :
    TransportParameter.encode tp t ≠ [] := by
  cases tp <;> simp [TransportParameter.encode, encode_uint]

theorem encode_entry_length_ge (tp : TransportParameter) (t : Nat) :
    4 ≤ (TransportParameter.encode tp t).length := by
  cases tp <;>
    simp [TransportParameter.encode, encode_uint_length, List.length_append] <;>
    omega

theorem encodeList_length_ge (l : List (Nat × TransportParameter)) :
    l.length ≤ (encodeList l).length := by
  induction l with
  | nil => simp [encodeList]
  | cons p l ih =>
    have h4 := encode_entry_length_ge p.2 p.1
    simp only [encodeList, List.foldr_cons, List.length_append, List.length_cons]
    simp only [encodeList] at ih
    omega

/-- Running the decode loop over encoded valid entries inserts each entry
in turn, consuming exactly one fuel unit per entry. -/
theorem decodeLoop_encodeList (l : List (Nat × TransportParameter)) :
    ∀ (k : Nat) (tps : TransportParameters) (rest : List Nat),
      (∀ p ∈ l, isValidEntry p.1 p.2 = true) →
      TransportParameters.decodeLoop (l.length + k) tps (encodeList l ++ rest) =
        TransportParameters.decodeLoop k
          (l.foldl (fun acc p => acc.insert p.1 p.2) tps) rest := by
  induction l with
  | nil => intro k tps rest _; simp [encodeList]
  | cons p l ih =>
    intro k tps rest hval
    have hne : TransportParameter.encode p.2 p.1 ++ (encodeList l ++ rest) ≠ [] := by
      intro hcontra
      exact encode_entry_ne_nil p.2 p.1 (List.append_eq_nil.mp hcontra).1
    have hstep : (p :: l).length + k = (l.length + k) + 1 := by
      simp [List.length_cons]; omega
    rw [hstep]
    rw [encodeList_cons, List.append_assoc]
    rw [decodeLoop_step _ _ _ hne,
      decode_encode_entry p.1 p.2 (hval p (by simp)) (encodeList l ++ rest)]
    simp only [List.foldl_cons]
    exact ih k (tps.insert p.1 p.2) rest (fun q hq => hval q (by simp [hq]))

theorem filter_ne_key (acc : List (Nat × TransportParameter)) (k : Nat)
    (hk : k ∉ acc.map Prod.fst) : acc.filter (fun p => p.1 != k) = acc := by
  induction acc with
  | nil => rfl
  | cons q acc ih =>
    simp only [List.map_cons, List.mem_cons] at hk
    push_neg at hk
    have hq : (q.1 != k) = true := by
      simp only [bne_iff_ne, ne_eq]
      exact fun e => hk.1 e.symm
    simp [List.filter_cons, hq, ih hk.2]

/-- Folding `insert` over entries with pairwise-distinct fresh keys
appends them in order. -/
theorem foldl_insert (l : List (Nat × TransportParameter)) :
    ∀ acc : List (Nat × TransportParameter),
      ((acc ++ l).map Prod.fst).Nodup →
      l.foldl (fun t p => TransportParameters.insert t p.1 p.2) ⟨acc⟩ = ⟨acc ++ l⟩ := by
  induction l with
  | nil => intro acc _; simp
  | cons p l ih =>
    intro acc hnodup
    obtain ⟨k, v⟩ := p
    have hkacc : k ∉ acc.map Prod.fst := by
      simp only [List.map_append, List.nodup_append] at hnodup
      intro hmem
      exact (hnodup.2.2 hmem) (by simp)
    have hins : TransportParameters.insert ⟨acc⟩ k v = ⟨acc ++ [(k, v)]⟩ := by
      unfold TransportParameters.insert
      rw [filter_ne_key acc k hkacc]
    simp only [List.foldl_cons]
    rw [hins, ih (acc ++ [(k, v)]) (by simpa using hnodup)]
    simp

theorem decode_data_le (n : Nat) (d : List Nat) (h : n ≤ d.length) :
    decode_data n d = .ok (d.take n, d.drop n) := by
  unfold decode_data
  rw [if_pos h]

/-! ## Claims -/

/-- Claim C1, counterexample: a Parameter Set holding the registry
entry for disable-migration (code 12, Empty variant) does not round-trip:
`TransportParameter.decode` has no arm for code 12, so the entry is
treated as unknown and dropped, and decoding the encoding yields the
empty set. -/
theorem C1_counterexample :
    TransportParameters.decode
        (TransportParameters.encode
          ⟨[(TRANSPORT_PARAMETER_DISABLE_MIGRATION, TransportParameter.Empty)]⟩) =
      .ok ⟨[]⟩ ∧
    (⟨[]⟩ : TransportParameters) ≠
      ⟨[(TRANSPORT_PARAMETER_DISABLE_MIGRATION, TransportParameter.Empty)]⟩ :=
  ⟨rfl, by decide⟩

/-- Claim C1 (amended): for every Parameter Set whose entries carry codes
with a decode arm (codes 0–11; disable-migration and preferred-address
excluded), the registry-mandated variant, values satisfying each code's
validation rule, Bytes lengths below the 16-bit length field and
Integers in varint range, and whose keys are distinct, decoding the
encoding returns the set itself. -/
theorem C1_roundtrip (S : TransportParameters)
    (hval : ∀ p ∈ S.params, isValidEntry p.1 p.2 = true)
    (hnodup : (S.params.map Prod.fst).Nodup) :
    TransportParameters.decode (TransportParameters.encode S) = .ok S := by
  obtain ⟨l⟩ := S
  rw [encode_eq_encodeList]
  unfold TransportParameters.decode
  have hge := encodeList_length_ge l
  have hdrive := decodeLoop_encodeList l ((encodeList l).length - l.length) ⟨[]⟩ [] hval
  rw [List.append_nil] at hdrive
  rw [show (encodeList l).length = l.length + ((encodeList l).length - l.length)
    from by omega]
  rw [hdrive, decodeLoop_nil, foldl_insert l [] (by simpa using hnodup)]
  simp

/-- Claim C1 witness: a concrete valid two-entry set round-trips. -/
theorem C1_roundtrip_witness :
    (∀ p ∈ ({ params := [(TRANSPORT_PARAMETER_STATELESS_RESET_TOKEN,
          TransportParameter.Bytes [1, 2, 3, 4, 5, 6, 7, 8, 1, 2, 3, 4, 5, 6, 7, 8]),
        (TRANSPORT_PARAMETER_INITIAL_MAX_STREAMS_BIDI, TransportParameter.Integer 10)] } :
        TransportParameters).params, isValidEntry p.1 p.2 = true) ∧
    (((({ params := [(TRANSPORT_PARAMETER_STATELESS_RESET_TOKEN,
          TransportParameter.Bytes [1, 2, 3, 4, 5, 6, 7, 8, 1, 2, 3, 4, 5, 6, 7, 8]),
        (TRANSPORT_PARAMETER_INITIAL_MAX_STREAMS_BIDI, TransportParameter.Integer 10)] } :
        TransportParameters)).params.map Prod.fst).Nodup) ∧
    TransportParameters.decode (TransportParameters.encode
        { params := [(TRANSPORT_PARAMETER_STATELESS_RESET_TOKEN,
            TransportParameter.Bytes [1, 2, 3, 4, 5, 6, 7, 8, 1, 2, 3, 4, 5, 6, 7, 8]),
          (TRANSPORT_PARAMETER_INITIAL_MAX_STREAMS_BIDI, TransportParameter.Integer 10)] }) =
      .ok { params := [(TRANSPORT_PARAMETER_STATELESS_RESET_TOKEN,
          TransportParameter.Bytes [1, 2, 3, 4, 5, 6, 7, 8, 1, 2, 3, 4, 5, 6, 7, 8]),
        (TRANSPORT_PARAMETER_INITIAL_MAX_STREAMS_BIDI, TransportParameter.Integer 10)] } :=
  ⟨by decide, by decide, C1_roundtrip _ (by decide) (by decide)⟩

/-- Claim C2 (code bug): the post-dispatch length check tests
over-consumption twice (`(remaining - d.remaining()) > length` on both
lines), so the under-consumption direction is never rejected.  First two
conjuncts: an idle-timeout entry with declared length 2 whose varint
payload is a single byte is accepted, leaving the stray declared byte in
the buffer.  Third conjunct: the over-consumption direction does fail,
though with the buffer-exhaustion error `NoMoreData`, not the
parameter-format error. -/
theorem C2_consumed_check_bug :
    (TransportParameter.decode [0, 1, 0, 2, 5, 0]).1 =
      .ok (TRANSPORT_PARAMETER_IDLE_TIMEOUT, TransportParameter.Integer 5) ∧
    (TransportParameter.decode [0, 1, 0, 2, 5, 0]).2 = [0] ∧
    (TransportParameter.decode [0, 1, 0, 1, 64, 100]).1 = .error .NoMoreData :=
  ⟨rfl, rfl, rfl⟩

/-- Claim C3: the Parameter Set decode loop returns the accumulated set
when the buffer is exhausted; on a non-empty buffer it runs the
per-entry decoder once, then inserts and continues on success, drops the
entry and continues on the unknown-parameter signal, and aborts with the
error otherwise.  The final conjuncts instantiate this: a well-formed
out-of-registry entry (code 99) followed by a well-formed known entry
decodes to the set holding only the known entry, while a malformed known
entry aborts the whole decode. -/
theorem C3_decode_loop (tps : TransportParameters) (fuel : Nat) (d : List Nat)
    (hd : d ≠ []) :
    (TransportParameters.decodeLoop (fuel + 1) tps d =
      match TransportParameter.decode d with
      | (.ok (tipe, tp), d1) =>
        TransportParameters.decodeLoop fuel (tps.insert tipe tp) d1
      | (.error .UnknownTransportParameter, d1) =>
        TransportParameters.decodeLoop fuel tps d1
      | (.error e, _) => .error e) ∧
    TransportParameters.decodeLoop fuel tps [] = .ok tps ∧
    TransportParameters.decode ([0, 99, 0, 1, 7] ++ [0, 1, 0, 1, 5]) =
      .ok ⟨[(TRANSPORT_PARAMETER_IDLE_TIMEOUT, TransportParameter.Integer 5)]⟩ ∧
    TransportParameters.decode ([0, 2, 0, 3, 1, 2, 3] ++ [0, 1, 0, 1, 5]) =
      .error .TransportParameterError :=
  ⟨decodeLoop_step fuel tps d hd, decodeLoop_nil fuel tps, rfl, rfl⟩

/-- Claim C3 witness: the step equation applied at a concrete state. -/
theorem C3_decode_loop_witness :
    ([0, 1, 0, 1, 5] : List Nat) ≠ [] ∧
    TransportParameters.decode ([0, 99, 0, 1, 7] ++ [0, 1, 0, 1, 5]) =
      .ok ⟨[(TRANSPORT_PARAMETER_IDLE_TIMEOUT, TransportParameter.Integer 5)]⟩ :=
  ⟨by decide, (C3_decode_loop ⟨[]⟩ 0 [0, 1, 0, 1, 5] (by decide)).2.2.1⟩

/-- Claim C9: a buffer holding two well-formed entries with the same
known code decodes successfully to the singleton set carrying the second
entry's value — the later occurrence overwrites the earlier one, and the
code appears exactly once in the result. -/
theorem C9_duplicate_last_wins (t : Nat) (v1 v2 : TransportParameter)
    (h1 : isValidEntry t v1 = true) (h2 : isValidEntry t v2 = true) :
    TransportParameters.decode
        (TransportParameter.encode v1 t ++ TransportParameter.encode v2 t) =
      .ok ⟨[(t, v2)]⟩ := by
  have hval : ∀ p ∈ [(t, v1), (t, v2)], isValidEntry p.1 p.2 = true := by
    intro p hp
    rcases List.mem_cons.mp hp with rfl | hp2
    · exact h1
    · rcases List.mem_cons.mp hp2 with rfl | h3
      · exact h2
      · cases h3
  have henc : encodeList [(t, v1), (t, v2)] =
      TransportParameter.encode v1 t ++ TransportParameter.encode v2 t := by
    simp [encodeList]
  have hN2 : 2 ≤ (TransportParameter.encode v1 t ++
      TransportParameter.encode v2 t).length := by
    have h4 := encode_entry_length_ge v1 t
    simp only [List.length_append]
    omega
  have hdrive := decodeLoop_encodeList [(t, v1), (t, v2)]
    ((TransportParameter.encode v1 t ++ TransportParameter.encode v2 t).length - 2)
    ⟨[]⟩ [] hval
  rw [List.append_nil, henc] at hdrive
  simp only [List.length_cons, List.length_nil] at hdrive
  unfold TransportParameters.decode
  rw [show (TransportParameter.encode v1 t ++ TransportParameter.encode v2 t).length =
      0 + 1 + 1 + ((TransportParameter.encode v1 t ++
        TransportParameter.encode v2 t).length - 2) from by omega]
  rw [hdrive, decodeLoop_nil]
  simp [TransportParameters.insert, List.filter_cons]

/-- Claim C9 witness: two idle-timeout entries; the decoded set holds
the second value only. -/
theorem C9_duplicate_last_wins_witness :
    isValidEntry TRANSPORT_PARAMETER_IDLE_TIMEOUT (TransportParameter.Integer 5) = true ∧
    isValidEntry TRANSPORT_PARAMETER_IDLE_TIMEOUT (TransportParameter.Integer 9) = true ∧
    TransportParameters.decode
        (TransportParameter.encode (TransportParameter.Integer 5)
            TRANSPORT_PARAMETER_IDLE_TIMEOUT ++
          TransportParameter.encode (TransportParameter.Integer 9)
            TRANSPORT_PARAMETER_IDLE_TIMEOUT) =
      .ok ⟨[(TRANSPORT_PARAMETER_IDLE_TIMEOUT, TransportParameter.Integer 9)]⟩ :=
  ⟨by decide, by decide,
    C9_duplicate_last_wins TRANSPORT_PARAMETER_IDLE_TIMEOUT _ _ (by decide) (by decide)⟩

/-- Claim C10: no input makes `TransportParameter.decode` return the
Empty variant — every successful dispatch arm builds Bytes or Integer —
and an encoded Empty entry under the disable-migration code (12) decodes
to the empty Parameter Set: the entry falls into the catch-all arm, is
signalled unknown, and is dropped by the decode loop. -/
theorem C10_empty_never_decoded (d : List Nat) (t : Nat) (tp : TransportParameter)
    (h : (TransportParameter.decode d).1 = .ok (t, tp)) :
    tp ≠ .Empty ∧
    TransportParameters.decode
        (TransportParameter.encode .Empty TRANSPORT_PARAMETER_DISABLE_MIGRATION) =
      .ok ⟨[]⟩ := by
  refine ⟨?_, rfl⟩
  unfold TransportParameter.decode at h
  repeat' split at h
  all_goals simp_all [apply_ite Prod.fst, ite_eq_iff]
  all_goals obtain ⟨-, -, rfl⟩ := h
  all_goals simp

/-- Claim C10 witness: an idle-timeout entry decodes to an Integer. -/
theorem C10_empty_never_decoded_witness :
    (TransportParameter.decode [0, 1, 0, 1, 5]).1 =
      .ok (TRANSPORT_PARAMETER_IDLE_TIMEOUT, TransportParameter.Integer 5) ∧
    TransportParameter.Integer 5 ≠ TransportParameter.Empty ∧
    TransportParameters.decode
        (TransportParameter.encode .Empty TRANSPORT_PARAMETER_DISABLE_MIGRATION) =
      .ok ⟨[]⟩ :=
  ⟨by decide, (C10_empty_never_decoded [0, 1, 0, 1, 5] 1
      (TransportParameter.Integer 5) (by decide)).1,
    (C10_empty_never_decoded [0, 1, 0, 1, 5] 1
      (TransportParameter.Integer 5) (by decide)).2⟩

/-- Claim C4: on an entry carrying the stateless-reset-token code with
declared length `L` (payload available), decode succeeds with the Bytes
value exactly when `L = 16`; any other declared length fails with the
parameter-format error before reading the payload. -/
theorem C4_reset_token_length (L : Nat) (hL : L < 2 ^ 16) (rest : List Nat)
    (hrest : 16 ≤ rest.length) :
    (TransportParameter.decode
        (encode_uint TRANSPORT_PARAMETER_STATELESS_RESET_TOKEN 2 ++
          (encode_uint L 2 ++ rest))).1 =
      if L = 16 then
        .ok (TRANSPORT_PARAMETER_STATELESS_RESET_TOKEN,
          TransportParameter.Bytes (rest.take 16))
      else .error .TransportParameterError := by
  have hLm : L % 256 ^ 2 = L := Nat.mod_eq_of_lt (by norm_num at hL ⊢; omega)
  simp only [TRANSPORT_PARAMETER_STATELESS_RESET_TOKEN, TransportParameter.decode,
    decode_uint_encode, hLm]
  by_cases h16 : L = 16
  · subst h16
    rw [decode_data_le 16 rest hrest]
    simp [show ¬ 16 < rest.length - (rest.length - 16) from by omega]
  · simp [h16]

/-- Claim C4 witness: lengths 15 and 17 fail, length 16 succeeds, on a
17-byte payload. -/
theorem C4_reset_token_length_witness :
    ((15 : Nat) < 2 ^ 16 ∧ 16 ≤ ([1, 2, 3, 4, 5, 6, 7, 8, 9, 10, 11, 12, 13,
        14, 15, 16, 17] : List Nat).length) ∧
    (TransportParameter.decode
        (encode_uint TRANSPORT_PARAMETER_STATELESS_RESET_TOKEN 2 ++
          (encode_uint 15 2 ++ [1, 2, 3, 4, 5, 6, 7, 8, 9, 10, 11, 12, 13, 14,
            15, 16, 17]))).1 = .error .TransportParameterError ∧
    (TransportParameter.decode
        (encode_uint TRANSPORT_PARAMETER_STATELESS_RESET_TOKEN 2 ++
          (encode_uint 17 2 ++ [1, 2, 3, 4, 5, 6, 7, 8, 9, 10, 11, 12, 13, 14,
            15, 16, 17]))).1 = .error .TransportParameterError ∧
    (TransportParameter.decode
        (encode_uint TRANSPORT_PARAMETER_STATELESS_RESET_TOKEN 2 ++
          (encode_uint 16 2 ++ [1, 2, 3, 4, 5, 6, 7, 8, 9, 10, 11, 12, 13, 14,
            15, 16, 17]))).1 =
      .ok (TRANSPORT_PARAMETER_STATELESS_RESET_TOKEN,
        TransportParameter.Bytes [1, 2, 3, 4, 5, 6, 7, 8, 9, 10, 11, 12, 13,
          14, 15, 16]) := by
  refine ⟨by decide, ?_, ?_, ?_⟩
  · have := C4_reset_token_length 15 (by decide) [1, 2, 3, 4, 5, 6, 7, 8, 9,
      10, 11, 12, 13, 14, 15, 16, 17] (by decide)
    simpa using this
  · have := C4_reset_token_length 17 (by decide) [1, 2, 3, 4, 5, 6, 7, 8, 9,
      10, 11, 12, 13, 14, 15, 16, 17] (by decide)
    simpa using this
  · have := C4_reset_token_length 16 (by decide) [1, 2, 3, 4, 5, 6, 7, 8, 9,
      10, 11, 12, 13, 14, 15, 16, 17] (by decide)
    simpa using this

/-- Claim C5: on a well-formed max-packet-size entry (varint payload,
declared length matching), decode fails with the parameter-format error
exactly when the value is below 1200, and otherwise succeeds with the
Integer value. -/
theorem C5_max_packet_size (v : Nat) (hv : v < 2 ^ 62) (rest : List Nat) :
    (TransportParameter.decode
        (encode_uint TRANSPORT_PARAMETER_MAX_PACKET_SIZE 2 ++
          (encode_uint (get_varint_len v) 2 ++ (encode_varint v ++ rest)))).1 =
      if v < 1200 then .error .TransportParameterError
      else .ok (TRANSPORT_PARAMETER_MAX_PACKET_SIZE, TransportParameter.Integer v) := by
  simp only [TRANSPORT_PARAMETER_MAX_PACKET_SIZE, TransportParameter.decode,
    decode_uint_encode, get_varint_len_lt, decode_varint_encode v hv]
  by_cases h : v < 1200
  · simp [h]
  · simp [h, List.length_append, encode_varint_length]

/-- Claim C5 witness: value 1199 fails, value 1200 succeeds. -/
theorem C5_max_packet_size_witness :
    ((1199 : Nat) < 2 ^ 62 ∧ (1200 : Nat) < 2 ^ 62) ∧
    (TransportParameter.decode
        (encode_uint TRANSPORT_PARAMETER_MAX_PACKET_SIZE 2 ++
          (encode_uint (get_varint_len 1199) 2 ++ (encode_varint 1199 ++ [])))).1 =
      .error .TransportParameterError ∧
    (TransportParameter.decode
        (encode_uint TRANSPORT_PARAMETER_MAX_PACKET_SIZE 2 ++
          (encode_uint (get_varint_len 1200) 2 ++ (encode_varint 1200 ++ [])))).1 =
      .ok (TRANSPORT_PARAMETER_MAX_PACKET_SIZE, TransportParameter.Integer 1200) := by
  refine ⟨by decide, ?_, ?_⟩
  · simpa using C5_max_packet_size 1199 (by decide) []
  · simpa using C5_max_packet_size 1200 (by decide) []

/-- Claim C6: on a well-formed ack-delay-exponent entry, decode fails
with the parameter-format error exactly when the value exceeds 20, and
otherwise succeeds with the Integer value. -/
theorem C6_ack_delay_exponent (v : Nat) (hv : v < 2 ^ 62) (rest : List Nat) :
    (TransportParameter.decode
        (encode_uint TRANSPORT_PARAMETER_ACK_DELAY_EXPONENT 2 ++
          (encode_uint (get_varint_len v) 2 ++ (encode_varint v ++ rest)))).1 =
      if 20 < v then .error .TransportParameterError
      else .ok (TRANSPORT_PARAMETER_ACK_DELAY_EXPONENT, TransportParameter.Integer v) := by
  simp only [TRANSPORT_PARAMETER_ACK_DELAY_EXPONENT, TransportParameter.decode,
    decode_uint_encode, get_varint_len_lt, decode_varint_encode v hv]
  by_cases h : 20 < v
  · simp [h]
  · simp [h, List.length_append, encode_varint_length]

/-- Claim C6 witness: value 21 fails, value 20 succeeds. -/
theorem C6_ack_delay_exponent_witness :
    ((21 : Nat) < 2 ^ 62 ∧ (20 : Nat) < 2 ^ 62) ∧
    (TransportParameter.decode
        (encode_uint TRANSPORT_PARAMETER_ACK_DELAY_EXPONENT 2 ++
          (encode_uint (get_varint_len 21) 2 ++ (encode_varint 21 ++ [])))).1 =
      .error .TransportParameterError ∧
    (TransportParameter.decode
        (encode_uint TRANSPORT_PARAMETER_ACK_DELAY_EXPONENT 2 ++
          (encode_uint (get_varint_len 20) 2 ++ (encode_varint 20 ++ [])))).1 =
      .ok (TRANSPORT_PARAMETER_ACK_DELAY_EXPONENT, TransportParameter.Integer 20) := by
  refine ⟨by decide, ?_, ?_⟩
  · simpa using C6_ack_delay_exponent 21 (by decide) []
  · simpa using C6_ack_delay_exponent 20 (by decide) []

/-- Claim C7: for every integer-typed registry code, `get_integer`
returns the stored Integer when one is present, and otherwise the fixed
protocol default — 0 for idle-timeout, initial-max-data, the four
stream-data limits and both stream-count limits, 65527 for
max-packet-size, 3 for ack-delay-exponent, 25 for max-ack-delay. -/
theorem C7_get_integer_defaults (S : TransportParameters) (tipe : Nat)
    (h : tipe = TRANSPORT_PARAMETER_IDLE_TIMEOUT ∨
      tipe = TRANSPORT_PARAMETER_INITIAL_MAX_DATA ∨
      tipe = TRANSPORT_PARAMETER_INITIAL_MAX_STREAM_DATA_BIDI_LOCAL ∨
      tipe = TRANSPORT_PARAMETER_INITIAL_MAX_STREAM_DATA_BIDI_REMOTE ∨
      tipe = TRANSPORT_PARAMETER_INITIAL_MAX_STREAM_DATA_UNI ∨
      tipe = TRANSPORT_PARAMETER_INITIAL_MAX_STREAMS_BIDI ∨
      tipe = TRANSPORT_PARAMETER_INITIAL_MAX_STREAMS_UNI ∨
      tipe = TRANSPORT_PARAMETER_MAX_PACKET_SIZE ∨
      tipe = TRANSPORT_PARAMETER_ACK_DELAY_EXPONENT ∨
      tipe = TRANSPORT_PARAMETER_MAX_ACK_DELAY) :
    S.get_integer tipe =
      match S.get tipe with
      | none => some (if tipe = TRANSPORT_PARAMETER_MAX_PACKET_SIZE then 65527
          else if tipe = TRANSPORT_PARAMETER_ACK_DELAY_EXPONENT then 3
          else if tipe = TRANSPORT_PARAMETER_MAX_ACK_DELAY then 25
          else 0)
      | some (.Integer x) => some x
      | some _ => none := by
  rcases h with rfl | rfl | rfl | rfl | rfl | rfl | rfl | rfl | rfl | rfl <;>
    (cases hS : TransportParameters.get S _ with
     | none => simp [TransportParameters.get_integer, hS]
     | some tp => cases tp <;> simp [TransportParameters.get_integer, hS])

/-- Claim C7 witness: the four spec defaults on the empty set, and a
stored value on a set carrying initial-max-streams-bidi. -/
theorem C7_get_integer_defaults_witness :
    TransportParameters.get_integer ⟨[]⟩ TRANSPORT_PARAMETER_IDLE_TIMEOUT = some 0 ∧
    TransportParameters.get_integer ⟨[]⟩ TRANSPORT_PARAMETER_MAX_PACKET_SIZE = some 65527 ∧
    TransportParameters.get_integer ⟨[]⟩ TRANSPORT_PARAMETER_ACK_DELAY_EXPONENT = some 3 ∧
    TransportParameters.get_integer ⟨[]⟩ TRANSPORT_PARAMETER_MAX_ACK_DELAY = some 25 ∧
    TransportParameters.get_integer
        ⟨[(TRANSPORT_PARAMETER_INITIAL_MAX_STREAMS_BIDI, TransportParameter.Integer 10)]⟩
        TRANSPORT_PARAMETER_INITIAL_MAX_STREAMS_BIDI = some 10 := by
  refine ⟨?_, ?_, ?_, ?_, ?_⟩
  · simpa using C7_get_integer_defaults ⟨[]⟩ TRANSPORT_PARAMETER_IDLE_TIMEOUT
      (by norm_num)
  · simpa using C7_get_integer_defaults ⟨[]⟩ TRANSPORT_PARAMETER_MAX_PACKET_SIZE
      (by norm_num)
  · simpa using C7_get_integer_defaults ⟨[]⟩ TRANSPORT_PARAMETER_ACK_DELAY_EXPONENT
      (by norm_num)
  · simpa using C7_get_integer_defaults ⟨[]⟩ TRANSPORT_PARAMETER_MAX_ACK_DELAY
      (by norm_num)
  · simpa using C7_get_integer_defaults
      ⟨[(TRANSPORT_PARAMETER_INITIAL_MAX_STREAMS_BIDI, TransportParameter.Integer 10)]⟩
      TRANSPORT_PARAMETER_INITIAL_MAX_STREAMS_BIDI (by norm_num)

/-- Claim C8: the adapter's consume operation signals alert 110 on an
irrelevant message kind; on a relevant one it decodes the bytes, and on
failure signals alert 47 leaving the handler (and its remote set)
untouched, while on success it stores the decoded set as remote and
signals success. -/
theorem C8_handler_consume (h : TransportParametersHandler) (msg : Nat)
    (d : List Nat) :
    h.handle msg d =
      if msg = TLS_HS_CLIENT_HELLO ∨ msg = TLS_HS_ENCRYPTED_EXTENSIONS then
        match TransportParameters.decode d with
        | .error _ => (h, .Alert 47)
        | .ok tp => ({ h with remote := some tp }, .Ok)
      else (h, .Alert 110) := by
  unfold TransportParametersHandler.handle
  by_cases hm : msg = TLS_HS_CLIENT_HELLO ∨ msg = TLS_HS_ENCRYPTED_EXTENSIONS
  · rw [if_neg (not_not_intro hm), if_pos hm]
  · rw [if_pos hm, if_neg hm]

end TParams
